import Mathlib

/-
Shallow embedding of the mini-text-editor core (src/editor.rs and
src/editor/output/*.rs) and proofs about its specification claims.
Strings are modelled as lists of characters (the source operates on
ASCII bytes / chars), machine integers (usize, u8, u64) as Nat - all
index arithmetic in the source is either guarded or saturating.
-/

namespace Pound

/-- Terminal colors used by the highlighter tables (crossterm Color variants that appear in the source). -/
inductive Color where
  | red
  | reset
  | cyan
  | blue
  | green
  | darkGreen
  | darkGrey
deriving DecidableEq, Repr

/-- The editor's highlight tags (src/editor/output/highlight.rs, enum HighlightType). -/
inductive HighlightType where
  | Normal
  | Number
  | SearchMatch
  | String
  | CharLiteral
  | Comment
  | Other (color : Color)
deriving DecidableEq, Repr

end Pound

namespace Pound

/-- The double-quote character (written via its code point to keep character
literals free of quote glyphs). -/
def dq : Char := Char.ofNat 34

/-- The single-quote character. -/
def sq : Char := Char.ofNat 39

/-- The backslash character. -/
def bs : Char := Char.ofNat 92

/-- One line of the buffer (src/editor/output/row.rs, struct Row):
raw text, tab-expanded render text and the per-render-character tags. -/
structure Row where
  row_content : List Char
  render : List Char
  highlight : List HighlightType
deriving DecidableEq, Repr, Inhabited

/-- TAB_STOP from src/editor/output/row.rs. -/
def TAB_STOP : Nat := 8

/-- The inner while-loop of render_row: starting at render column `index`
(one column already consumed for the tab itself), push spaces until the
column is a multiple of TAB_STOP; returns the pushed spaces and the final
column. -/
def tabPad (index : Nat) : List Char × Nat :=
  if index % TAB_STOP = 0 then ([], index)
  else
    let p := tabPad (index + 1)
    (' ' :: p.1, p.2)
termination_by (TAB_STOP - index % TAB_STOP) % TAB_STOP
decreasing_by
  simp only [TAB_STOP] at *
  omega

/-- The character loop of render_row (src/editor/output/row.rs 108-127):
`index` is the number of render characters emitted so far. -/
def renderGo (index : Nat) : List Char → List Char
  | [] => []
  | c :: rest =>
    if c = '\t' then
      let p := tabPad (index + 1)
      ' ' :: p.1 ++ renderGo p.2 rest
    else c :: renderGo (index + 1) rest

/-- render_row's computation of the render text from the raw text. -/
def renderOf (raw : List Char) : List Char := renderGo 0 raw

/-- EditorRows::render_row - recompute a row's render text from its raw text
(the source mutates the row in place). -/
def render_row (row : Row) : Row := { row with render := renderOf row.row_content }

/-- Spec-modelled rendering, following the spec's words only (spec.md section 4.1):
"tabs expand to the next column that is a multiple of 8, filled with spaces;
non-tab characters copy through unchanged". Used to compare against `renderOf`,
which is translated from the source. -/
def renderSpec (raw : List Char) : List Char :=
  raw.foldl
    (fun acc c =>
      if c = '\t' then acc ++ List.replicate (TAB_STOP - acc.length % TAB_STOP) ' '
      else acc ++ [c])
    []

theorem tabPad_eq (index : Nat) :
    tabPad index =
      (List.replicate ((TAB_STOP - index % TAB_STOP) % TAB_STOP) ' ',
        index + (TAB_STOP - index % TAB_STOP) % TAB_STOP) := by
  rw [tabPad]
  split
  · rename_i h
    simp [h]
  · rename_i h
    rw [tabPad_eq (index + 1)]
    simp only [TAB_STOP] at *
    have h8 : index % 8 < 8 := Nat.mod_lt _ (by omega)
    rcases Nat.lt_or_ge (index % 8) 7 with h7 | h7
    · have : (index + 1) % 8 = index % 8 + 1 := by omega
      rw [this]
      have e1 : (8 - (index % 8 + 1)) % 8 = 8 - (index % 8 + 1) := by omega
      have e2 : (8 - index % 8) % 8 = 8 - index % 8 := by omega
      rw [e1, e2]
      simp only [Prod.mk.injEq]
      refine ⟨?_, by omega⟩
      have e3 : 8 - index % 8 = (8 - (index % 8 + 1)) + 1 := by omega
      rw [e3, List.replicate_succ]
    · have h7' : index % 8 = 7 := by omega
      have : (index + 1) % 8 = 0 := by omega
      rw [this]
      simp [h7']
termination_by (TAB_STOP - index % TAB_STOP) % TAB_STOP
decreasing_by
  simp only [TAB_STOP] at *
  omega

theorem renderGo_eq_fold (raw : List Char) :
    ∀ acc : List Char,
      raw.foldl
        (fun acc c =>
          if c = '\t' then acc ++ List.replicate (TAB_STOP - acc.length % TAB_STOP) ' '
          else acc ++ [c])
        acc = acc ++ renderGo acc.length raw := by
  induction raw with
  | nil => intro acc; simp [renderGo]
  | cons c rest ih =>
    intro acc
    rw [List.foldl_cons, ih]
    by_cases hc : c = '\t'
    · simp only [hc, if_pos rfl, if_true, renderGo]
      rw [tabPad_eq]
      have h8 : acc.length % 8 < 8 := Nat.mod_lt _ (by omega)
      simp only [TAB_STOP] at *
      have hlen : (acc ++ List.replicate (8 - acc.length % 8) ' ').length
          = acc.length + (8 - acc.length % 8) := by simp
      rw [hlen]
      have hrep : List.replicate (8 - acc.length % 8) ' '
          = ' ' :: List.replicate ((8 - (acc.length + 1) % 8) % 8) ' ' := by
        rcases Nat.lt_or_ge (acc.length % 8) 7 with h7 | h7
        · have e1 : (acc.length + 1) % 8 = acc.length % 8 + 1 := by omega
          rw [e1]
          have e2 : (8 - (acc.length % 8 + 1)) % 8 = 8 - (acc.length % 8 + 1) := by omega
          rw [e2]
          have e3 : 8 - acc.length % 8 = (8 - (acc.length % 8 + 1)) + 1 := by omega
          rw [e3, List.replicate_succ]
        · have h7' : acc.length % 8 = 7 := by omega
          have e1 : (acc.length + 1) % 8 = 0 := by omega
          rw [e1]
          simp [h7']
      have hcol : acc.length + 1 + (8 - (acc.length + 1) % 8) % 8
          = acc.length + (8 - acc.length % 8) := by
        rcases Nat.lt_or_ge (acc.length % 8) 7 with h7 | h7
        · have e1 : (acc.length + 1) % 8 = acc.length % 8 + 1 := by omega
          rw [e1]; omega
        · have h7' : acc.length % 8 = 7 := by omega
          have e1 : (acc.length + 1) % 8 = 0 := by omega
          rw [e1]; omega
      rw [hrep, hcol]
      simp
    · simp only [if_neg hc, renderGo]
      simp

/-- The source render function agrees with the spec's description of rendering. -/
theorem renderOf_eq_renderSpec (raw : List Char) : renderOf raw = renderSpec raw := by
  have h := renderGo_eq_fold raw []
  simp only [List.nil_append, List.length_nil] at h
  unfold renderOf renderSpec
  exact h.symm

/-- SyntaxHighlight::is_separator (src/editor/output/highlight.rs 39-46):
whitespace or one of a fixed punctuation set. -/
def is_separator (c : Char) : Bool :=
  c.isWhitespace ||
    [',', '.', '(', ')', '+', '-', '/', '*', '=', '~', '%', '<', '>', dq, sq, ';', '&'].contains c

/-- The comment token of the RustHighlight instance (src/editor/output.rs 25). -/
def commentStart : List Char := "//".data

/-- The keyword table of the RustHighlight instance (src/editor/output.rs 26-35):
first the Color::Red group, then the Color::Reset group, in source order. -/
def KEYWORDS : List (List Char × Color) :=
  (["mod", "unsafe", "extern", "crate", "use", "type", "struct", "enum", "union", "const",
      "static", "mut", "let", "if", "else", "impl", "trait", "for", "fn", "self", "Self",
      "while", "true", "false", "in", "continue", "break", "loop", "match"].map
    fun w => (w.data, Color.red)) ++
  (["isize", "i8", "i16", "i32", "i64", "usize", "u8", "u16", "u32", "u64", "f32", "f64",
      "char", "str", "bool"].map
    fun w => (w.data, Color.reset))

/-- The source's slice-equality probe `render[i..end] == *word` guarded by bounds:
`matchPfx pat hay` holds when `hay` starts with `pat`. -/
def matchPfx : List Char → List Char → Bool
  | [], _ => true
  | _ :: _, [] => false
  | a :: as_, b :: bs_ => a = b && matchPfx as_ bs_

/-- The keyword boundary check `is_end_or_sep` (src/editor/output/highlight.rs 185-188):
the character after the candidate token is a separator, or the token ends the row. -/
def endOrSep : List Char → Bool
  | [] => true
  | c :: _ => is_separator c

/-- The keyword-probing cascade of update_syntax (src/editor/output/highlight.rs 181-198):
the first keyword of the table, in source order, that starts the remaining text and is
separator- or end-bounded. The `!w.isEmpty` conjunct only rules out an empty keyword,
which the source table does not contain, and keeps the scan productive. -/
def keywordMatch (rem : List Char) : Option (List Char × Color) :=
  KEYWORDS.find? fun p => !p.1.isEmpty && endOrSep (rem.drop p.1.length) && matchPfx p.1 rem

theorem matchPfx_length_le : ∀ pat hay : List Char, matchPfx pat hay = true → pat.length ≤ hay.length := by
  intro pat
  induction pat with
  | nil => intro hay _; simp
  | cons a as_ ih =>
    intro hay h
    cases hay with
    | nil => simp [matchPfx] at h
    | cons b bs_ =>
      simp only [matchPfx, Bool.and_eq_true] at h
      simpa using ih bs_ h.2

theorem keywordMatch_some {rem w col} (h : keywordMatch rem = some (w, col)) :
    w ≠ [] ∧ w.length ≤ rem.length := by
  have hp := List.find?_some h
  simp only [Bool.and_eq_true, Bool.not_eq_true'] at hp
  refine ⟨?_, matchPfx_length_le _ _ hp.2⟩
  intro hw
  rw [hw] at hp
  simp [List.isEmpty] at hp

/-- The per-row tokenization loop of update_syntax (src/editor/output/highlight.rs 124-203).
`prevSep` is the running "previous character was separator" flag, `prevHl` the most
recently pushed tag (`highlight[i-1]`, Normal at the start), `inStr` the open
string/char-literal quote. One tag is produced per remaining render character. -/
def updateSyntaxGo (prevSep : Bool) (prevHl : HighlightType) (inStr : Option Char) :
    (rem : List Char) → List HighlightType
  | [] => []
  | c :: rest =>
    if inStr = none ∧ commentStart ≠ [] ∧ matchPfx commentStart (c :: rest) = true then
      (c :: rest).map fun _ => HighlightType.Comment
    else
      match inStr with
      | some val =>
        if c = bs ∧ rest ≠ [] then
          (if val = dq then HighlightType.String else HighlightType.CharLiteral) ::
            (if val = dq then HighlightType.String else HighlightType.CharLiteral) ::
            updateSyntaxGo prevSep
              (if val = dq then HighlightType.String else HighlightType.CharLiteral)
              (some val) rest.tail
        else
          (if val = dq then HighlightType.String else HighlightType.CharLiteral) ::
            updateSyntaxGo true
              (if val = dq then HighlightType.String else HighlightType.CharLiteral)
              (if val = c then none else some val) rest
      | none =>
        if c = dq ∨ c = sq then
          (if c = dq then HighlightType.String else HighlightType.CharLiteral) ::
            updateSyntaxGo prevSep
              (if c = dq then HighlightType.String else HighlightType.CharLiteral)
              (some c) rest
        else if (c.isDigit ∧ (prevSep = true ∨ prevHl = HighlightType.Number)) ∨
            (c = '.' ∧ prevHl = HighlightType.Number) then
          HighlightType.Number :: updateSyntaxGo false HighlightType.Number none rest
        else if prevSep then
          match keywordMatch (c :: rest) with
          | some (w, col) =>
            -- Advance past the matched token: `keywordMatch` only returns nonempty
            -- keywords, so dropping `w.length - 1` of `rest` is dropping `w.length`
            -- of the remaining text.
            List.replicate w.length (HighlightType.Other col) ++
              updateSyntaxGo false (HighlightType.Other col) none (rest.drop (w.length - 1))
          | none =>
            HighlightType.Normal :: updateSyntaxGo (is_separator c) HighlightType.Normal none rest
        else
          HighlightType.Normal :: updateSyntaxGo (is_separator c) HighlightType.Normal none rest
termination_by rem => rem.length
decreasing_by
  all_goals try simp_wf
  all_goals omega

/-- update_syntax (src/editor/output/highlight.rs 109-206): rebuild row `i`'s
highlight sequence from scratch out of its render text. Out-of-bounds indexing
panics in the source; the claims only invoke it in bounds. -/
def updateSyntaxAt (i : Nat) (rows : List Row) : List Row :=
  match rows[i]? with
  | none => rows
  | some row =>
    rows.set i { row with highlight := updateSyntaxGo true HighlightType.Normal none row.render }

/-- The tokenization loop emits exactly one tag per remaining render character. -/
theorem updateSyntaxGo_length (prevSep : Bool) (prevHl : HighlightType) (inStr : Option Char)
    (rem : List Char) : (updateSyntaxGo prevSep prevHl inStr rem).length = rem.length := by
  induction prevSep, prevHl, inStr, rem using updateSyntaxGo.induct
  all_goals rw [updateSyntaxGo.eq_def]
  all_goals simp_all [commentStart]
  case case3 a b c rest val h ih =>
    have hp : 0 < rest.length := List.length_pos.mpr h.2
    omega
  case case4 a b c rest val h ih =>
    rw [if_neg (fun hcon => hcon.2 (h hcon.1))]
    simp [ih]
  case case7 b c rest w col h2 hk h1 hcm ih =>
    have hw := keywordMatch_some hk
    rw [if_neg (fun hcon => h1.2 hcon.1 hcon.2)]
    have hle : w.length ≤ rest.length + 1 := by simpa using hw.2
    have hpos : 0 < w.length := List.length_pos.mpr hw.1
    simp only [List.length_append, List.length_replicate, ih]
    omega
  case case8 b c rest h2 hk h1 hcm ih =>
    rw [if_neg (fun hcon => h1.2 hcon.1 hcon.2)]
    simp [ih]
  case case9 a b c rest h3 h2 h1 hcm ih =>
    rw [if_neg ?_]
    · simp [ih]
    · rintro (hcon | hcon)
      · exact h2.1 hcon.1 hcon.2
      · exact h2.2 hcon.1 hcon.2

/-- C1: for every row index at which update_syntax is invoked on a document whose
row index is in bounds, after the call returns, the length of that row's highlight
sequence equals the length of that row's render string. -/
theorem updateSyntaxAt_highlight_len_eq_render_len (rows : List Row) (i : Nat) (row' : Row)
    (h : (updateSyntaxAt i rows)[i]? = some row') :
    row'.highlight.length = row'.render.length := by
  unfold updateSyntaxAt at h
  cases hrow : rows[i]? with
  | none => rw [hrow] at h; rw [hrow] at h; exact absurd h (by simp)
  | some row =>
    rw [hrow] at h
    have hi : i < rows.length := by
      by_contra hge
      rw [List.getElem?_eq_none (by omega)] at hrow
      exact absurd hrow (by simp)
    rw [List.getElem?_set_eq_of_lt _ (by simpa using hi)] at h
    cases h
    simpa using updateSyntaxGo_length true HighlightType.Normal none row.render

/-- C1 witness: running update_syntax on the render text `for x` of a one-row
document yields a highlight sequence of the render's length. -/
theorem updateSyntaxAt_highlight_len_eq_render_len_witness :
    ({ row_content := "for x".data, render := "for x".data,
        highlight :=
          [HighlightType.Other Color.red, HighlightType.Other Color.red,
            HighlightType.Other Color.red, HighlightType.Normal, HighlightType.Normal] } :
        Row).highlight.length =
    ({ row_content := "for x".data, render := "for x".data,
        highlight :=
          [HighlightType.Other Color.red, HighlightType.Other Color.red,
            HighlightType.Other Color.red, HighlightType.Normal, HighlightType.Normal] } :
        Row).render.length :=
  updateSyntaxAt_highlight_len_eq_render_len
    [{ row_content := "for x".data, render := "for x".data, highlight := [] }] 0 _
    (by simp [updateSyntaxAt, updateSyntaxGo, keywordMatch, KEYWORDS, commentStart, matchPfx,
      endOrSep, is_separator, dq, sq, bs])

/-- Vec::insert at an index (panics past the length in the source; the editor only
inserts at indices ≤ len, where this total model agrees). -/
def listInsertAt {α : Type} : Nat → α → List α → List α
  | 0, a, l => a :: l
  | _ + 1, a, [] => [a]
  | n + 1, a, b :: l => b :: listInsertAt n a l

/-- Vec::remove at an index (panics out of bounds in the source; the editor only
removes in bounds, where this total model agrees). -/
def listEraseAt {α : Type} : Nat → List α → List α
  | _, [] => []
  | 0, _ :: l => l
  | n + 1, b :: l => b :: listEraseAt n l

/-- get_editor_row_mut followed by in-place writes: replace the element at an index. -/
def listModify {α : Type} (i : Nat) (f : α → α) (l : List α) : List α :=
  match l[i]? with
  | none => l
  | some a => l.set i (f a)

/-- str::find - the leftmost index where the pattern starts inside the text. -/
def strFind : List Char → List Char → Option Nat
  | hay, pat =>
    if matchPfx pat hay then some 0
    else
      match hay with
      | [] => none
      | _ :: rest => (strFind rest pat).map (· + 1)

/-- str::rfind - the rightmost index where the pattern starts inside the text. -/
def strRFind : List Char → List Char → Option Nat
  | [], pat => if matchPfx pat [] then some 0 else none
  | c :: rest, pat =>
    match strRFind rest pat with
    | some i => some (i + 1)
    | none => if matchPfx pat (c :: rest) then some 0 else none

/-- The row store (src/editor/output/row.rs, struct EditorRows). -/
structure EditorRows where
  row_contents : List Row
  filename : Option String
deriving DecidableEq, Repr

def EditorRows.number_of_row (e : EditorRows) : Nat := e.row_contents.length

/-- EditorRows::get_row (panics out of bounds in the source). -/
def EditorRows.get_row (e : EditorRows) (i : Nat) : List Char :=
  ((e.row_contents[i]?).getD default).row_content

/-- EditorRows::insert_row: build a row from raw content, render it, insert it. -/
def EditorRows.insert_row (e : EditorRows) (i : Nat) (contents : List Char) : EditorRows :=
  { e with
    row_contents :=
      listInsertAt i (render_row { row_content := contents, render := [], highlight := [] })
        e.row_contents }

/-- EditorRows::join_adjacent_rows (src/editor/output/row.rs 101-106): remove row `i`,
append its raw content onto row `i-1`, re-render row `i-1`. -/
def EditorRows.join_adjacent_rows (e : EditorRows) (i : Nat) : EditorRows :=
  match e.row_contents[i]? with
  | none => e
  | some cur =>
    { e with
      row_contents :=
        listModify (i - 1)
          (fun prev => render_row { prev with row_content := prev.row_content ++ cur.row_content })
          (listEraseAt i e.row_contents) }

/-- Row::insert_char: insert into the raw text, re-render. -/
def Row.insert_char (r : Row) (i : Nat) (ch : Char) : Row :=
  render_row { r with row_content := listInsertAt i ch r.row_content }

/-- Row::delete_char: remove from the raw text, re-render. -/
def Row.delete_char (r : Row) (i : Nat) : Row :=
  render_row { r with row_content := listEraseAt i r.row_content }

/-- Row::find: leftmost occurrence of the query in the render text. -/
def Row.find (r : Row) (keyword : List Char) : Option Nat := strFind r.render keyword

/-- Row::len: length of the render text. -/
def Row.len (r : Row) : Nat := r.render.length

/-- The scanning loop of Row::get_row_content_x (src/editor/output/row.rs 164-176):
`cur` is current_render_x, `cx` the raw index reached so far. -/
def grcGo (render_x : Nat) (cur cx : Nat) : List Char → Nat
  | [] => 0
  | ch :: rest =>
    let cur' := if ch = '\t' then cur + (TAB_STOP - 1) - cur % TAB_STOP + 1 else cur + 1
    if cur' > render_x then cx else grcGo render_x cur' (cx + 1) rest

/-- Row::get_row_content_x: map a render index back to a raw index. -/
def Row.get_row_content_x (r : Row) (render_x : Nat) : Nat :=
  grcGo render_x 0 0 r.row_content

/-- The key events the dispatcher distinguishes (crossterm KeyCode as used in
src/editor.rs; `other` stands for every pattern falling into the wildcard arm). -/
inductive KeyCode where
  | up
  | down
  | left
  | right
  | home
  | endKey
  | pageUp
  | pageDown
  | char (c : Char)
  | tab
  | enter
  | backspace
  | delete
  | esc
  | ctrlQ
  | ctrlS
  | other
deriving DecidableEq, Repr

/-- src/editor/output/cursor.rs, struct CursorController. -/
structure CursorController where
  cursor_x : Nat
  cursor_y : Nat
  screen_columns : Nat
  screen_rows : Nat
  row_offset : Nat
  column_offset : Nat
  render_x : Nat
deriving DecidableEq, Repr

/-- CursorController::move_cursor (src/editor/output/cursor.rs 33-82). Subtraction is
saturating in the source exactly where Nat subtraction is used here. The source is
only ever invoked with the six movement keys (others hit unimplemented!). -/
def CursorController.move_cursor (cc : CursorController) (direction : KeyCode)
    (editor_rows : EditorRows) : CursorController :=
  let number_of_rows := editor_rows.number_of_row
  let cc :=
    match direction with
    | .up => { cc with cursor_y := cc.cursor_y - 1 }
    | .left =>
      if cc.cursor_x ≠ 0 then { cc with cursor_x := cc.cursor_x - 1 }
      else if cc.cursor_y > 0 then
        { cc with
          cursor_y := cc.cursor_y - 1,
          cursor_x := (editor_rows.get_row (cc.cursor_y - 1)).length }
      else cc
    | .down =>
      if cc.cursor_y < number_of_rows then { cc with cursor_y := cc.cursor_y + 1 } else cc
    | .right =>
      if cc.cursor_y < number_of_rows then
        if cc.cursor_x < (editor_rows.get_row cc.cursor_y).length then
          { cc with cursor_x := cc.cursor_x + 1 }
        else if cc.cursor_x = (editor_rows.get_row cc.cursor_y).length then
          { cc with cursor_x := 0, cursor_y := cc.cursor_y + 1 }
        else cc
      else cc
    | .home => { cc with cursor_x := 0 }
    | .endKey =>
      if cc.cursor_y < number_of_rows then
        { cc with cursor_x := (editor_rows.get_row cc.cursor_y).length }
      else cc
    | _ => cc
  let row_len :=
    if cc.cursor_y < number_of_rows then (editor_rows.get_row cc.cursor_y).length else 0
  { cc with cursor_x := min cc.cursor_x row_len }

/-- CursorController::get_render_x (src/editor/output/cursor.rs 101-109): tab-aware
render column of the raw prefix before the cursor. -/
def CursorController.get_render_x (cc : CursorController) (row : Row) : Nat :=
  (row.row_content.take cc.cursor_x).foldl
    (fun acc c => if c = '\t' then acc + (TAB_STOP - 1) - acc % TAB_STOP + 1 else acc + 1) 0

/-- CursorController::scroll (src/editor/output/cursor.rs 84-99). -/
def CursorController.scroll (cc : CursorController) (editor_rows : EditorRows) :
    CursorController :=
  let render_x :=
    if cc.cursor_y < editor_rows.number_of_row then
      cc.get_render_x ((editor_rows.row_contents[cc.cursor_y]?).getD default)
    else 0
  let row_offset := min cc.row_offset cc.cursor_y
  let row_offset :=
    if cc.cursor_y ≥ row_offset + cc.screen_rows then cc.cursor_y - cc.screen_rows + 1
    else row_offset
  let column_offset := min cc.column_offset render_x
  let column_offset :=
    if render_x ≥ column_offset + cc.screen_columns then render_x - cc.screen_columns + 1
    else column_offset
  { cc with render_x := render_x, row_offset := row_offset, column_offset := column_offset }

/-- src/editor/output/search.rs, enum SearchDirection. -/
inductive SearchDirection where
  | Forward
  | Backward
deriving DecidableEq, Repr

/-- src/editor/output/search.rs, struct SearchIndex. -/
structure SearchIndex where
  x_index : Nat
  y_index : Nat
  x_direction : Option SearchDirection
  y_direction : Option SearchDirection
  previous_highlight : Option (Nat × List HighlightType)
deriving DecidableEq, Repr

/-- SearchIndex::new, which SearchIndex::reset also restores. -/
def SearchIndex.new : SearchIndex :=
  { x_index := 0, y_index := 0, x_direction := none, y_direction := none,
    previous_highlight := none }

/-- The editor-facing state of src/editor/output.rs, struct Output. The message bar
storage lives in the absent src/editor/output/status.rs; modelled from the spec
("message bar: transient status text") as the stored optional message.
`syntax_highlight` records whether the registry selected the one concrete
highlighter (RustHighlight). -/
structure Output where
  win_size : Nat × Nat
  cursor_controller : CursorController
  editor_rows : EditorRows
  status_message : Option String
  dirty : Nat
  search_index : SearchIndex
  syntax_highlight : Bool
deriving DecidableEq, Repr

/-- Output::set_message (via StatusMessage::set_message). -/
def Output.set_message (o : Output) (m : String) : Output := { o with status_message := some m }

/-- Output::is_dirty. -/
def Output.is_dirty (o : Output) : Bool := decide (o.dirty > 0)

/-- Output::move_cursor. -/
def Output.move_cursor (o : Output) (direction : KeyCode) : Output :=
  { o with cursor_controller := o.cursor_controller.move_cursor direction o.editor_rows }

/-- Output::page_up_down (src/editor/output.rs 100-119). -/
def Output.page_up_down (o : Output) (code : KeyCode) : Output :=
  let cc := o.cursor_controller
  let cc :=
    match code with
    | .pageUp => { cc with cursor_y := cc.row_offset }
    | .pageDown =>
      { cc with
        cursor_y := min o.editor_rows.number_of_row (o.win_size.2 + cc.row_offset - 1) }
    | _ => cc
  let o := { o with cursor_controller := cc }
  (List.range o.win_size.2).foldl
    (fun o _ => o.move_cursor (if code = KeyCode.pageUp then KeyCode.up else KeyCode.down)) o

/-- Output::insert_char (src/editor/output.rs 121-140). -/
def Output.insert_char (o : Output) (ch : Char) : Output :=
  let o :=
    if o.cursor_controller.cursor_y = o.editor_rows.number_of_row then
      { o with
        editor_rows := o.editor_rows.insert_row o.editor_rows.number_of_row [],
        dirty := o.dirty + 1 }
    else o
  let y := o.cursor_controller.cursor_y
  let rows :=
    listModify y (fun r => r.insert_char o.cursor_controller.cursor_x ch)
      o.editor_rows.row_contents
  let rows := if o.syntax_highlight then updateSyntaxAt y rows else rows
  { o with
    editor_rows := { o.editor_rows with row_contents := rows },
    cursor_controller :=
      { o.cursor_controller with cursor_x := o.cursor_controller.cursor_x + 1 },
    dirty := o.dirty + 1 }

/-- Output::insert_newline (src/editor/output.rs 142-172). -/
def Output.insert_newline (o : Output) : Output :=
  let x := o.cursor_controller.cursor_x
  let y := o.cursor_controller.cursor_y
  let o :=
    if x = 0 then { o with editor_rows := o.editor_rows.insert_row y [] }
    else
      let current := (o.editor_rows.row_contents[y]?).getD default
      let new_row_content := current.row_content.drop x
      let rows :=
        listModify y (fun r => render_row { r with row_content := r.row_content.take x })
          o.editor_rows.row_contents
      let e := EditorRows.insert_row { o.editor_rows with row_contents := rows } (y + 1)
        new_row_content
      let rows :=
        if o.syntax_highlight then updateSyntaxAt (y + 1) (updateSyntaxAt y e.row_contents)
        else e.row_contents
      { o with editor_rows := { e with row_contents := rows } }
  { o with
    cursor_controller := { o.cursor_controller with cursor_x := 0, cursor_y := y + 1 },
    dirty := o.dirty + 1 }

/-- Output::delete_char (src/editor/output.rs 174-205). -/
def Output.delete_char (o : Output) : Output :=
  let x := o.cursor_controller.cursor_x
  let y := o.cursor_controller.cursor_y
  if y = o.editor_rows.number_of_row then o
  else if y = 0 ∧ x = 0 then o
  else
    let o' :=
      if x > 0 then
        { o with
          editor_rows :=
            { o.editor_rows with
              row_contents :=
                listModify y (fun r => r.delete_char (x - 1)) o.editor_rows.row_contents },
          cursor_controller := { o.cursor_controller with cursor_x := x - 1 } }
      else
        let previous_row_content := o.editor_rows.get_row (y - 1)
        { o with
          editor_rows := o.editor_rows.join_adjacent_rows y,
          cursor_controller :=
            { o.cursor_controller with
              cursor_x := previous_row_content.length, cursor_y := y - 1 } }
    let rows :=
      if o'.syntax_highlight then
        updateSyntaxAt o'.cursor_controller.cursor_y o'.editor_rows.row_contents
      else o'.editor_rows.row_contents
    { o' with
      editor_rows := { o'.editor_rows with row_contents := rows }, dirty := o'.dirty + 1 }

/-- The io::Error values the save path produces (src/editor/output/row.rs 80-99):
no established file name, or a failure of the open/truncate/write calls. -/
inductive IOErr where
  | noFileName
  | writeFailed
deriving DecidableEq, Repr

/-- The external world of one save operation: the text the modal "Save as" prompt
commits (None = cancelled), and whether the filesystem write capability succeeds.
Both are collaborators the spec treats as capabilities. -/
structure SaveEnv where
  promptResult : Option String
  writeOk : Bool
deriving DecidableEq, Repr

/-- The bytes EditorRows::save writes: rows joined with a newline. -/
def EditorRows.joined (e : EditorRows) : List Char :=
  List.intercalate ['\n'] (e.row_contents.map fun r => r.row_content)

/-- EditorRows::save (src/editor/output/row.rs 80-99): error without a filename,
otherwise write the joined rows and return the byte count. -/
def EditorRows.save (env : SaveEnv) (e : EditorRows) : Except IOErr Nat :=
  match e.filename with
  | none => Except.error IOErr.noFileName
  | some _ =>
    if env.writeOk then Except.ok e.joined.length else Except.error IOErr.writeFailed

/-- Modelled after the std Path::extension capability used by Output::save: the
part of the file name after the last dot when there is one. -/
def pathExtension (s : String) : Option String :=
  let parts := s.splitOn "."
  if parts.length ≥ 2 then some (parts.getLastD "") else none

/-- Output::select_syntax: the registry holds the single RustHighlight instance
with extension list ["rs"]; selection succeeds when the extension matches. -/
def select_syntax (extension : String) : Bool := ["rs"].contains extension

/-- The retroactive re-tokenization loop of Output::save: update_syntax for
every row index 0..number_of_row. -/
def updateAllSyntax (rows : List Row) : List Row :=
  (List.range rows.length).foldl (fun rs i => updateSyntaxAt i rs) rows

/-- The tail of Output::save (src/editor/output.rs 231-235): perform the write and,
on success only, report the byte count and clear the dirty counter. -/
def Output.saveWrite (env : SaveEnv) (o : Output) : Except IOErr Unit × Output :=
  match EditorRows.save env o.editor_rows with
  | Except.error e => (Except.error e, o)
  | Except.ok len =>
    (Except.ok (),
      { o.set_message s!"{len} bytes written to disk" with dirty := 0 })

/-- Output::save (src/editor/output.rs 207-236): prompt for a name when none is
established (aborting on cancel), possibly select a highlighter from the new
extension and re-tokenize every row, then write. -/
def Output.save (env : SaveEnv) (o : Output) : Except IOErr Unit × Output :=
  match o.editor_rows.filename with
  | none =>
    match env.promptResult with
    | none => (Except.ok (), o.set_message "Save Aborted")
    | some path =>
      let o :=
        match pathExtension path with
        | some ext =>
          if select_syntax ext then
            { o with
              syntax_highlight := true,
              editor_rows :=
                { o.editor_rows with
                  row_contents := updateAllSyntax o.editor_rows.row_contents } }
          else o
        | none => o
      Output.saveWrite env { o with editor_rows := { o.editor_rows with filename := some path } }
  | some _ => Output.saveWrite env o

/-- One step of the modal line-input prompt loop (the prompt macro,
src/editor.rs 130-178): either the loop continues with the new input, or it ends
with the committed input (`done (some ..)`) or cancelled (`done none`). -/
inductive PromptStep where
  | next (input : List Char)
  | done (result : Option (List Char))
deriving DecidableEq, Repr

/-- The body of the prompt loop for one key. Enter commits only when the input is
nonempty; Escape clears the input and ends the loop; Backspace and Delete pop the
last character; printable characters and Tab append; everything else is ignored. -/
def promptStep (input : List Char) (key : KeyCode) : PromptStep :=
  match key with
  | .enter => if input ≠ [] then PromptStep.done (some input) else PromptStep.next input
  | .esc => PromptStep.done none
  | .backspace => PromptStep.next input.dropLast
  | .delete => PromptStep.next input.dropLast
  | .char c => PromptStep.next (input ++ [c])
  | .tab => PromptStep.next (input ++ ['\t'])
  | _ => PromptStep.next input

/-- Run the prompt loop over a sequence of keys; `none` means the loop is still
waiting for input after consuming them all. -/
def promptRun (input : List Char) : List KeyCode → Option (Option (List Char))
  | [] => none
  | k :: ks =>
    match promptStep input k with
    | PromptStep.done r => some r
    | PromptStep.next input' => promptRun input' ks

/-- The row scan of Output::find_callback (src/editor/output.rs 294-353): the for
loop over `i`, carrying the whole output state (`n` is the row count, fixed during
the scan). Out-of-range vector indexing cannot occur on the paths the editor
exercises; the total model uses defaults there. -/
def findGo (keyword : List Char) (n : Nat) (i : Nat) (out : Output) : Output :=
  if i < n then
    let out :=
      if out.search_index.y_direction = none ∧ out.search_index.x_direction = none then
        { out with search_index := { out.search_index with y_index := i } }
      else out
    let row_index? : Option Nat :=
      match out.search_index.y_direction with
      | none => some out.search_index.y_index
      | some SearchDirection.Forward => some (out.search_index.y_index + i + 1)
      | some SearchDirection.Backward =>
        let res := out.search_index.y_index - i
        if res = 0 then none else some (res - 1)
    match row_index? with
    | none => out
    | some row_index =>
      if row_index > n - 1 then out
      else
        let row := (out.editor_rows.row_contents[row_index]?).getD default
        let index? : Option (Option Nat) :=
          match out.search_index.x_direction with
          | none => some (row.find keyword)
          | some dir =>
            let idx :=
              match dir with
              | SearchDirection.Forward =>
                let start := min row.len (out.search_index.x_index + 1)
                (strFind (row.render.drop start) keyword).map (· + start)
              | SearchDirection.Backward =>
                strRFind (row.render.take out.search_index.x_index) keyword
            if idx = none then none else some idx
        match index? with
        | none => out
        | some none => findGo keyword n (i + 1) out
        | some (some index) =>
          { out with
            editor_rows :=
              { out.editor_rows with
                row_contents :=
                  listModify row_index
                    (fun r =>
                      { r with
                        highlight :=
                          r.highlight.mapIdx fun j t =>
                            if index ≤ j ∧ j < index + keyword.length then
                              HighlightType.SearchMatch
                            else t })
                    out.editor_rows.row_contents },
            search_index :=
              { out.search_index with
                previous_highlight := some (row_index, row.highlight),
                y_index := row_index,
                x_index := index },
            cursor_controller :=
              { out.cursor_controller with
                cursor_y := row_index,
                cursor_x := row.get_row_content_x index,
                row_offset := out.editor_rows.number_of_row } }
  else out
termination_by n - i
decreasing_by
  all_goals omega

/-- Output::find_callback (src/editor/output.rs 266-356): restore a pending overlay,
reset on Escape/Enter, otherwise update the directions from the key and scan. -/
def find_callback (out : Output) (keyword : List Char) (key_code : KeyCode) : Output :=
  let out :=
    match out.search_index.previous_highlight with
    | some (index, highlight) =>
      { out with
        editor_rows :=
          { out.editor_rows with
            row_contents :=
              listModify index (fun r => { r with highlight := highlight })
                out.editor_rows.row_contents },
        search_index := { out.search_index with previous_highlight := none } }
    | none => out
  match key_code with
  | .esc | .enter => { out with search_index := SearchIndex.new }
  | _ =>
    let si :=
      { out.search_index with
        y_direction := (none : Option SearchDirection),
        x_direction := (none : Option SearchDirection) }
    let si :=
      match key_code with
      | .down => { si with y_direction := some SearchDirection.Forward }
      | .up => { si with y_direction := some SearchDirection.Backward }
      | .left => { si with x_direction := some SearchDirection.Backward }
      | .right => { si with x_direction := some SearchDirection.Forward }
      | _ => si
    findGo keyword out.editor_rows.number_of_row 0 { out with search_index := si }

/-- src/editor.rs, struct Editor (the reader is an external capability). -/
structure Editor where
  output : Output
  quit_times : Nat
deriving DecidableEq, Repr

/-- QUIT_TIMES (src/editor.rs 11). -/
def QUIT_TIMES : Nat := 3

/-- Editor::process_keypress (src/editor.rs 38-104): the returned Bool is the
"keep running" flag; an error from save propagates out through `?`. Every arm
other than the quit arm falls through to the reset of quit_times. -/
def processKeypress (env : SaveEnv) (ed : Editor) (k : KeyCode) :
    Except IOErr (Bool × Editor) :=
  match k with
  | .ctrlQ =>
    if ed.output.is_dirty = true ∧ ed.quit_times > 0 then
      Except.ok (true,
        { ed with
          output := ed.output.set_message
            s!"WARNING!!! File has unsaved changes. Press Ctrl-Q {ed.quit_times} more times to quit.",
          quit_times := ed.quit_times - 1 })
    else Except.ok (false, ed)
  | .ctrlS =>
    match Output.save env ed.output with
    | (Except.error e, _) => Except.error e
    | (Except.ok _, o) => Except.ok (true, { output := o, quit_times := QUIT_TIMES })
  | .up | .left | .down | .right | .home | .endKey =>
    Except.ok (true, { output := ed.output.move_cursor k, quit_times := QUIT_TIMES })
  | .pageUp | .pageDown =>
    Except.ok (true, { output := ed.output.page_up_down k, quit_times := QUIT_TIMES })
  | .char c =>
    Except.ok (true, { output := ed.output.insert_char c, quit_times := QUIT_TIMES })
  | .tab =>
    Except.ok (true, { output := ed.output.insert_char '\t', quit_times := QUIT_TIMES })
  | .backspace =>
    Except.ok (true, { output := ed.output.delete_char, quit_times := QUIT_TIMES })
  | .delete =>
    Except.ok (true,
      { output := (ed.output.move_cursor KeyCode.right).delete_char,
        quit_times := QUIT_TIMES })
  | .enter =>
    Except.ok (true, { output := ed.output.insert_newline, quit_times := QUIT_TIMES })
  | _ => Except.ok (true, { ed with quit_times := QUIT_TIMES })

/-- The main loop (Editor::run, called until it returns false): feed keys one by
one, stopping as soon as a keypress reports "stop" or errors out. -/
def runKeys (env : SaveEnv) (ed : Editor) : List KeyCode → Except IOErr (Bool × Editor)
  | [] => Except.ok (true, ed)
  | k :: ks =>
    match processKeypress env ed k with
    | Except.error e => Except.error e
    | Except.ok (false, ed') => Except.ok (false, ed')
    | Except.ok (true, ed') => runKeys env ed' ks

/-- Whether the program is still running after a key sequence. -/
def isRunning : Except IOErr (Bool × Editor) → Bool
  | Except.ok (true, _) => true
  | _ => false

/-- A cursor at a given position on a 10x10 screen, offsets zero. -/
def mkCursor (x y : Nat) : CursorController :=
  { cursor_x := x, cursor_y := y, screen_columns := 10, screen_rows := 10,
    row_offset := 0, column_offset := 0, render_x := 0 }

/-- A row store built from raw line texts, each rendered, no filename. -/
def sampleRows (ss : List String) : EditorRows :=
  { row_contents := ss.map fun s => render_row { row_content := s.data, render := [], highlight := [] },
    filename := none }

/-- An output state over the given lines with the cursor at (x, y). -/
def sampleOutput (ss : List String) (x y : Nat) : Output :=
  { win_size := (10, 10), cursor_controller := mkCursor x y, editor_rows := sampleRows ss,
    status_message := none, dirty := 0, search_index := SearchIndex.new,
    syntax_highlight := false }

/-- C6: row rendering expands every tab to spaces up to the next column that is a
multiple of 8 and copies non-tab characters unchanged (the source render function
agrees with the spec-modelled fold); concretely, raw `a\tb` renders as `a`, seven
spaces, `b`; and re-rendering a row whose raw text is unchanged produces the
identical render string. -/
theorem render_row_tab_expansion :
    (∀ raw : List Char, renderOf raw = renderSpec raw) ∧
    renderOf "a\tb".data = "a".data ++ List.replicate 7 ' ' ++ "b".data ∧
    (∀ row : Row, render_row (render_row row) = render_row row) := by
  refine ⟨renderOf_eq_renderSpec, ?_, ?_⟩
  · show renderGo 0 "a\tb".data = _
    simp only [String.data]
    simp [renderGo, tabPad_eq, TAB_STOP]
  · intro row
    simp [render_row]

/-- C10: backspace is a complete no-op when the cursor is at row 0, column 0, or on
the line past the last row: the whole output state is unchanged. -/
theorem delete_char_noop (o : Output)
    (h : o.cursor_controller.cursor_y = o.editor_rows.number_of_row ∨
      (o.cursor_controller.cursor_y = 0 ∧ o.cursor_controller.cursor_x = 0)) :
    o.delete_char = o := by
  rcases h with h | h
  · rw [Output.delete_char, if_pos h]
  · rw [Output.delete_char]
    by_cases hn : o.cursor_controller.cursor_y = o.editor_rows.number_of_row
    · rw [if_pos hn]
    · rw [if_neg hn, if_pos ⟨h.1, h.2⟩]

/-- C10 witness: on a one-row document with the cursor at the origin, backspace
leaves the state untouched. -/
theorem delete_char_noop_witness :
    (sampleOutput ["ab"] 0 0).delete_char = sampleOutput ["ab"] 0 0 :=
  delete_char_noop (sampleOutput ["ab"] 0 0) (Or.inr ⟨rfl, rfl⟩)

/-- C3 counterexample: on a one-row document with the cursor at the end of the last
(only) row, Right is not a no-op - it moves the cursor to column 0 of the virtual
line past the last row. -/
theorem move_cursor_right_last_row_not_noop :
    (mkCursor 2 0).move_cursor KeyCode.right (sampleRows ["ab"]) ≠ mkCursor 2 0 := by
  decide

/-- C3 (amended): Left at column 0 of a non-first line moves to the end of the
previous row and is a no-op on the first row; Right at end-of-row moves to column 0
of the next line for every line index below the row count - including the last row,
from whose end it moves onto the virtual line past the buffer - and is a no-op only
on that virtual line (cursor row = row count, column 0). -/
theorem move_cursor_left_right_edges (cc : CursorController) (e : EditorRows) :
    (cc.cursor_x = 0 → 0 < cc.cursor_y → cc.cursor_y ≤ e.number_of_row →
      cc.move_cursor KeyCode.left e =
        { cc with
          cursor_y := cc.cursor_y - 1,
          cursor_x := (e.get_row (cc.cursor_y - 1)).length }) ∧
    (cc.cursor_x = 0 → cc.cursor_y = 0 → cc.move_cursor KeyCode.left e = cc) ∧
    (cc.cursor_y < e.number_of_row → cc.cursor_x = (e.get_row cc.cursor_y).length →
      cc.move_cursor KeyCode.right e =
        { cc with cursor_x := 0, cursor_y := cc.cursor_y + 1 }) ∧
    (cc.cursor_y = e.number_of_row → cc.cursor_x = 0 →
      cc.move_cursor KeyCode.right e = cc) := by
  refine ⟨?_, ?_, ?_, ?_⟩
  · intro hx hy hyn
    rw [CursorController.move_cursor]
    simp only [hx, ne_eq, not_true_eq_false, if_false, if_pos hy]
    rcases Nat.lt_or_ge (cc.cursor_y - 1) e.number_of_row with hlt | hge
    · simp [hlt]
    · omega
  · intro hx hy
    rw [CursorController.move_cursor]
    simp only [hx, hy, ne_eq, not_true_eq_false, if_false, lt_irrefl]
    rcases Nat.lt_or_ge 0 e.number_of_row with hlt | hge
    · simp only [if_pos hlt]
      cases cc
      simp_all
    · simp only [if_neg (by omega : ¬(0 : Nat) < e.number_of_row)]
      cases cc
      simp_all
  · intro hy hx
    rw [CursorController.move_cursor]
    simp only [if_pos hy, hx, lt_irrefl, if_false, if_pos rfl]
    rcases Nat.lt_or_ge (cc.cursor_y + 1) e.number_of_row with hlt | hge
    · simp [hlt]
    · have : ¬cc.cursor_y + 1 < e.number_of_row := by omega
      simp [this]
  · intro hy hx
    rw [CursorController.move_cursor]
    simp only [hy, lt_irrefl, if_false]
    cases cc
    simp_all

/-- C3 witness: on a two-row document ["ab", "c"], Left at column 0 of row 1 lands
at the end of row 0. -/
theorem move_cursor_left_right_edges_witness :
    (mkCursor 0 1).move_cursor KeyCode.left (sampleRows ["ab", "c"]) =
      { mkCursor 0 1 with cursor_y := 0, cursor_x := 2 } :=
  (move_cursor_left_right_edges (mkCursor 0 1) (sampleRows ["ab", "c"])).1 rfl
    (by decide) (by decide)

/-- C5 counterexample: pressing Enter on an empty prompt input does not cancel the
prompt - the loop continues - unlike Escape, which does cancel. -/
theorem promptStep_enter_empty_not_cancel :
    promptStep [] KeyCode.enter ≠ PromptStep.done none ∧
    promptStep [] KeyCode.esc = PromptStep.done none := by
  decide

/-- C5 (amended): in the modal line-input prompt, Enter with nonempty input commits
the input; Enter with empty input is ignored and the prompt stays open; Escape
always cancels, returning no input. -/
theorem promptStep_enter_commits_esc_cancels (input : List Char) :
    (input ≠ [] → promptStep input KeyCode.enter = PromptStep.done (some input)) ∧
    promptStep [] KeyCode.enter = PromptStep.next [] ∧
    promptStep input KeyCode.esc = PromptStep.done none := by
  refine ⟨fun h => ?_, rfl, rfl⟩
  rw [promptStep]
  simp [h]

/-- C5 witness: Enter commits the nonempty input "a". -/
theorem promptStep_enter_commits_esc_cancels_witness :
    promptStep ['a'] KeyCode.enter = PromptStep.done (some ['a']) :=
  (promptStep_enter_commits_esc_cancels ['a']).1 (by decide)

/-- C4 counterexample: with an established path, a dirty buffer and a failing write,
Ctrl-S does not keep the program running - process_keypress propagates the error -
and the message bar is left untouched rather than reporting the failure. -/
theorem save_write_failed_counterexample :
    processKeypress { promptResult := none, writeOk := false }
      { output :=
          { sampleOutput ["a"] 0 0 with
            editor_rows := { sampleRows ["a"] with filename := some "a.txt" },
            dirty := 1 },
        quit_times := 3 } KeyCode.ctrlS = Except.error IOErr.writeFailed ∧
    (Output.save { promptResult := none, writeOk := false }
      { sampleOutput ["a"] 0 0 with
        editor_rows := { sampleRows ["a"] with filename := some "a.txt" },
        dirty := 1 }).2.status_message = none := by
  exact ⟨rfl, rfl⟩

/-- C4 (amended): when a save with an established path fails at the write step,
Output::save returns the write error with the state untouched - dirty counter
unchanged (still nonzero) and no message-bar report - and process_keypress
propagates the error, terminating the run loop instead of keeping the program
running. -/
theorem save_write_failed_propagates (env : SaveEnv) (o : Output) (p : String) (qt : Nat)
    (hf : o.editor_rows.filename = some p) (hw : env.writeOk = false) :
    Output.save env o = (Except.error IOErr.writeFailed, o) ∧
    processKeypress env { output := o, quit_times := qt } KeyCode.ctrlS =
      Except.error IOErr.writeFailed := by
  have hsave : Output.save env o = (Except.error IOErr.writeFailed, o) := by
    rw [Output.save, hf, Output.saveWrite, EditorRows.save, hf, if_neg (by simp [hw])]
  refine ⟨hsave, ?_⟩
  simp only [processKeypress, hsave]

/-- C4 witness: a concrete dirty one-row buffer with path "a.txt" and a failing
write capability - save errors out and the state is returned unchanged. -/
theorem save_write_failed_propagates_witness :
    Output.save { promptResult := none, writeOk := false }
      { sampleOutput ["b"] 0 0 with
        editor_rows := { sampleRows ["b"] with filename := some "a.txt" },
        dirty := 2 } =
      (Except.error IOErr.writeFailed,
        { sampleOutput ["b"] 0 0 with
          editor_rows := { sampleRows ["b"] with filename := some "a.txt" },
          dirty := 2 }) :=
  (save_write_failed_propagates { promptResult := none, writeOk := false } _ "a.txt" 0 rfl
    rfl).1

/-- C2 counterexample: with a dirty document and the quit counter at its initial
value QUIT_TIMES = 3, pressing Ctrl-Q exactly 3 times does not terminate the
program - it is still running afterwards. -/
theorem quit_three_presses_still_running :
    isRunning (runKeys { promptResult := none, writeOk := true }
      { output := { sampleOutput [] 0 0 with dirty := 1 }, quit_times := QUIT_TIMES }
      (List.replicate QUIT_TIMES KeyCode.ctrlQ)) = true := by
  decide

/-- C2 (amended): with a dirty document and the quit counter at QUIT_TIMES,
pressing the quit key QUIT_TIMES times consecutively leaves the program running
(each press warns and decrements), the (QUIT_TIMES+1)-th consecutive press
terminates it, and processing any other key resets the counter to QUIT_TIMES. -/
theorem quit_confirmation (env : SaveEnv) (ed : Editor)
    (hd : 0 < ed.output.dirty) (hq : ed.quit_times = QUIT_TIMES) :
    isRunning (runKeys env ed (List.replicate QUIT_TIMES KeyCode.ctrlQ)) = true ∧
    isRunning (runKeys env ed (List.replicate (QUIT_TIMES + 1) KeyCode.ctrlQ)) = false ∧
    (∀ (k : KeyCode) (b : Bool) (ed' : Editor), k ≠ KeyCode.ctrlQ →
      processKeypress env ed k = Except.ok (b, ed') → ed'.quit_times = QUIT_TIMES) := by
  obtain ⟨o, qt⟩ := ed
  simp only [] at hq hd
  subst hq
  refine ⟨?_, ?_, ?_⟩
  · simp [QUIT_TIMES, List.replicate, runKeys, processKeypress, Output.is_dirty,
      Output.set_message, isRunning, hd]
  · simp [QUIT_TIMES, List.replicate, runKeys, processKeypress, Output.is_dirty,
      Output.set_message, isRunning, hd]
  · intro k b ed' hk hpk
    cases k
    case ctrlQ => exact absurd rfl hk
    case ctrlS =>
      simp only [processKeypress] at hpk
      split at hpk
      · exact absurd hpk (by simp)
      · cases hpk; rfl
    all_goals simp only [processKeypress] at hpk
    all_goals cases hpk
    all_goals rfl

/-- C2 witness: from a concrete dirty editor with the counter at 3, four
consecutive quit presses terminate the program. -/
theorem quit_confirmation_witness :
    isRunning (runKeys { promptResult := none, writeOk := true }
      { output := { sampleOutput [] 0 0 with dirty := 1 }, quit_times := QUIT_TIMES }
      (List.replicate (QUIT_TIMES + 1) KeyCode.ctrlQ)) = false :=
  (quit_confirmation { promptResult := none, writeOk := true }
    { output := { sampleOutput [] 0 0 with dirty := 1 }, quit_times := QUIT_TIMES }
    (by decide) rfl).2.1

/-- C9: after a scroll pass with viewport height and width at least 1, the cursor
row lies inside [row_offset, row_offset + height) and the recomputed render column
inside [column_offset, column_offset + width); moreover the adjustment is minimal:
an offset is unchanged whenever the cursor was already inside the window, and
otherwise moves just far enough to put the cursor on the nearer window edge. -/
theorem scroll_keeps_cursor_in_window (cc : CursorController) (e : EditorRows)
    (hrows : 1 ≤ cc.screen_rows) (hcols : 1 ≤ cc.screen_columns) :
    ((cc.scroll e).row_offset ≤ (cc.scroll e).cursor_y ∧
      (cc.scroll e).cursor_y < (cc.scroll e).row_offset + cc.screen_rows) ∧
    ((cc.scroll e).column_offset ≤ (cc.scroll e).render_x ∧
      (cc.scroll e).render_x < (cc.scroll e).column_offset + cc.screen_columns) ∧
    ((cc.row_offset ≤ cc.cursor_y ∧ cc.cursor_y < cc.row_offset + cc.screen_rows) →
      (cc.scroll e).row_offset = cc.row_offset) ∧
    (cc.cursor_y < cc.row_offset → (cc.scroll e).row_offset = cc.cursor_y) ∧
    (cc.row_offset + cc.screen_rows ≤ cc.cursor_y →
      (cc.scroll e).row_offset = cc.cursor_y - cc.screen_rows + 1) ∧
    ((cc.column_offset ≤ (cc.scroll e).render_x ∧
        (cc.scroll e).render_x < cc.column_offset + cc.screen_columns) →
      (cc.scroll e).column_offset = cc.column_offset) ∧
    ((cc.scroll e).render_x < cc.column_offset →
      (cc.scroll e).column_offset = (cc.scroll e).render_x) ∧
    (cc.column_offset + cc.screen_columns ≤ (cc.scroll e).render_x →
      (cc.scroll e).column_offset = (cc.scroll e).render_x - cc.screen_columns + 1) := by
  simp only [CursorController.scroll]
  split_ifs <;> simp_all <;> omega

theorem listInsertAt_eq {α : Type} (a : α) :
    ∀ (y : Nat) (l : List α), y ≤ l.length → listInsertAt y a l = l.take y ++ a :: l.drop y := by
  intro y
  induction y with
  | zero => intro l _; simp [listInsertAt]
  | succ y ih =>
    intro l hl
    cases l with
    | nil => simp at hl
    | cons b l' =>
      simp only [listInsertAt, List.take_succ_cons, List.drop_succ_cons, List.cons_append]
      rw [ih l' (by simpa using hl)]

theorem listEraseAt_eq {α : Type} :
    ∀ (y : Nat) (l : List α), listEraseAt y l = l.take y ++ l.drop (y + 1) := by
  intro y
  induction y with
  | zero => intro l; cases l <;> simp [listEraseAt]
  | succ y ih =>
    intro l
    cases l with
    | nil => simp [listEraseAt]
    | cons b l' =>
      simp only [listEraseAt, List.take_succ_cons, List.drop_succ_cons, List.cons_append]
      rw [ih l']

theorem listModify_eq {α : Type} (f : α → α) (y : Nat) (l : List α) (v : α)
    (hv : l[y]? = some v) :
    listModify y f l = l.take y ++ f v :: l.drop (y + 1) := by
  rw [listModify, hv]
  exact List.set_eq_take_cons_drop _ (List.getElem?_eq_some.mp hv).1

theorem listInsertAt_length {α : Type} (a : α) :
    ∀ (y : Nat) (l : List α), y ≤ l.length → (listInsertAt y a l).length = l.length + 1 := by
  intro y l hl
  rw [listInsertAt_eq a y l hl]
  simp
  omega

theorem listModify_length {α : Type} (f : α → α) (y : Nat) (l : List α) :
    (listModify y f l).length = l.length := by
  rw [listModify]
  cases h : l[y]? <;> simp

theorem map_listInsertAt {α β : Type} (f : α → β) (a : α) :
    ∀ (y : Nat) (l : List α), (listInsertAt y a l).map f = listInsertAt y (f a) (l.map f) := by
  intro y
  induction y with
  | zero => intro l; simp [listInsertAt]
  | succ y ih =>
    intro l
    cases l with
    | nil => simp [listInsertAt]
    | cons b l' => simp only [listInsertAt, List.map_cons, ih l']

theorem map_listEraseAt {α β : Type} (f : α → β) :
    ∀ (y : Nat) (l : List α), (listEraseAt y l).map f = listEraseAt y (l.map f) := by
  intro y
  induction y with
  | zero => intro l; cases l <;> simp [listEraseAt]
  | succ y ih =>
    intro l
    cases l with
    | nil => simp [listEraseAt]
    | cons b l' => simp only [listEraseAt, List.map_cons, ih l']

theorem map_listModify {α β : Type} (f : α → β) (g : α → α) (h' : β → β)
    (hcomm : ∀ a, f (g a) = h' (f a)) (y : Nat) (l : List α) :
    (listModify y g l).map f = listModify y h' (l.map f) := by
  rw [listModify, listModify, List.getElem?_map]
  cases h : l[y]? with
  | none => rfl
  | some a =>
    show (l.set y (g a)).map f = (l.map f).set y (h' (f a))
    rw [List.map_set, hcomm]

/-- update_syntax only replaces a highlight field: the raw contents are untouched. -/
theorem updateSyntaxAt_map_rc (i : Nat) (rows : List Row) :
    (updateSyntaxAt i rows).map (fun r => r.row_content) =
      rows.map (fun r => r.row_content) := by
  rw [updateSyntaxAt]
  cases h : rows[i]? with
  | none => rfl
  | some row =>
    rw [List.map_set]
    have hi : i < rows.length := (List.getElem?_eq_some.mp h).1
    rw [List.set_eq_take_cons_drop _ (by simpa using hi)]
    have : (rows.map fun r => r.row_content) =
        (rows.map fun r => r.row_content).take i ++
          row.row_content :: (rows.map fun r => r.row_content).drop (i + 1) := by
      conv_lhs => rw [← List.take_append_drop i (rows.map fun r => r.row_content)]
      rw [List.drop_eq_getElem_cons (by simpa using hi)]
      simp [List.getElem_map, (List.getElem?_eq_some.mp h).2]
    rw [← this]

theorem getAt_append_cons {α : Type} (pre : List α) (a : α) (rest : List α) :
    (pre ++ a :: rest)[pre.length]? = some a := by
  induction pre with
  | nil => simp
  | cons b pre ih => simpa using ih

theorem take_of_append_cons {α : Type} (pre : List α) (a : α) (rest : List α) (y : Nat)
    (hA : pre.length = y) : (pre ++ a :: rest).take (y + 1) = pre ++ [a] := by
  have h : (pre ++ a :: rest).take (pre.length + 1) = pre ++ (a :: rest).take 1 :=
    List.take_append ..
  rw [hA] at h
  simpa using h

theorem drop_of_append_cons {α : Type} (pre : List α) (a : α) (rest : List α) (y : Nat)
    (hA : pre.length = y) : (pre ++ a :: rest).drop (y + 1) = rest := by
  have h : (pre ++ a :: rest).drop (pre.length + 1) = (a :: rest).drop 1 :=
    List.drop_append ..
  rw [hA] at h
  simpa using h

theorem take_of_append_len {α : Type} (pre : List α) (rest : List α) (y : Nat)
    (hA : pre.length = y) : (pre ++ rest).take y = pre := by
  have h : (pre ++ rest).take (pre.length + 0) = pre ++ rest.take 0 :=
    List.take_append ..
  rw [hA] at h
  simpa using h

theorem get_of_append_cons {α : Type} (pre : List α) (a : α) (rest : List α) (y : Nat)
    (hA : pre.length = y) : (pre ++ a :: rest)[y]? = some a := by
  have h := getAt_append_cons pre a rest
  rw [hA] at h
  exact h

theorem take_cons_drop_self {α : Type} (R : List α) (y : Nat) (v : α)
    (hv : R[y]? = some v) : R.take y ++ v :: R.drop (y + 1) = R := by
  have hy : y < R.length := (List.getElem?_eq_some.mp hv).1
  conv_rhs => rw [← List.take_append_drop y R]
  rw [List.drop_eq_getElem_cons hy]
  simp [(List.getElem?_eq_some.mp hv).2]

/-- The split-then-join list identity for a split at a positive raw column. -/
theorem split_join_core_pos (R : List (List Char)) (y x : Nat) (v : List Char)
    (hv : R[y]? = some v) :
    listModify y (fun s => s ++ v.drop x)
      (listEraseAt (y + 1)
        (listInsertAt (y + 1) (v.drop x) (listModify y (fun s => s.take x) R))) = R := by
  have hy : y < R.length := (List.getElem?_eq_some.mp hv).1
  have hA : (R.take y).length = y := List.length_take_of_le (by omega)
  rw [listModify_eq _ y R v hv]
  rw [listInsertAt_eq _ (y + 1) _ (by simp; omega)]
  rw [take_of_append_cons _ _ _ y hA, drop_of_append_cons _ _ _ y hA, listEraseAt_eq]
  have hA2 : (R.take y ++ [v.take x]).length = y + 1 := by simp [hA]
  rw [take_of_append_len _ _ (y + 1) hA2, drop_of_append_cons _ _ _ (y + 1) hA2]
  rw [List.append_assoc, List.singleton_append]
  rw [listModify_eq _ y _ (v.take x) (get_of_append_cons _ _ _ y hA)]
  rw [take_of_append_len _ _ y hA, drop_of_append_cons _ _ _ y hA]
  rw [List.take_append_drop]
  exact take_cons_drop_self R y v hv

/-- The split-then-join list identity for a split at raw column 0. -/
theorem split_join_core_zero (R : List (List Char)) (y : Nat) (v : List Char)
    (hv : R[y]? = some v) :
    listModify y (fun s => s ++ v)
      (listEraseAt (y + 1) (listInsertAt y [] R)) = R := by
  have hy : y < R.length := (List.getElem?_eq_some.mp hv).1
  have hA : (R.take y).length = y := List.length_take_of_le (by omega)
  rw [listInsertAt_eq _ y R (by omega)]
  rw [List.drop_eq_getElem_cons hy, listEraseAt_eq]
  rw [take_of_append_cons _ _ _ y hA]
  have hA2 : (R.take y ++ [([] : List Char)]).length = y + 1 := by simp [hA]
  have hrw : R.take y ++ ([] : List Char) :: R[y] :: R.drop (y + 1) =
      (R.take y ++ [([] : List Char)]) ++ R[y] :: R.drop (y + 1) := by simp
  rw [hrw, drop_of_append_cons _ _ _ (y + 1) hA2]
  rw [List.append_assoc, List.singleton_append]
  rw [listModify_eq _ y _ [] (get_of_append_cons _ _ _ y hA)]
  rw [take_of_append_len _ _ y hA, drop_of_append_cons _ _ _ y hA]
  simp only [List.nil_append]
  exact take_cons_drop_self R y v hv

/-- insert_newline leaves cursor geometry at column 0 of the following line. -/
theorem insert_newline_cursor (o : Output) :
    o.insert_newline.cursor_controller =
      { o.cursor_controller with
        cursor_x := 0, cursor_y := o.cursor_controller.cursor_y + 1 } := by
  simp only [Output.insert_newline]
  split <;> rfl

/-- insert_newline does not change the highlighter selection. -/
theorem insert_newline_syntax (o : Output) :
    o.insert_newline.syntax_highlight = o.syntax_highlight := by
  simp only [Output.insert_newline]
  split <;> rfl

/-- The raw-content image of insert_newline: insert an empty row at the cursor row
when the cursor is at column 0, otherwise truncate the cursor row at the cursor
column and insert the tail as a new row below. -/
theorem insert_newline_map_rc (o : Output) (v : Row)
    (hv : o.editor_rows.row_contents[o.cursor_controller.cursor_y]? = some v) :
    o.insert_newline.editor_rows.row_contents.map (fun r => r.row_content) =
      if o.cursor_controller.cursor_x = 0 then
        listInsertAt o.cursor_controller.cursor_y []
          (o.editor_rows.row_contents.map fun r => r.row_content)
      else
        listInsertAt (o.cursor_controller.cursor_y + 1)
          (v.row_content.drop o.cursor_controller.cursor_x)
          (listModify o.cursor_controller.cursor_y
            (fun s => s.take o.cursor_controller.cursor_x)
            (o.editor_rows.row_contents.map fun r => r.row_content)) := by
  simp only [Output.insert_newline]
  by_cases hx0 : o.cursor_controller.cursor_x = 0
  · rw [if_pos hx0, if_pos hx0]
    simp only [EditorRows.insert_row]
    rw [map_listInsertAt]
    rfl
  · rw [if_neg hx0, if_neg hx0]
    rw [hv]
    simp only [EditorRows.insert_row, Option.getD_some]
    by_cases hs : o.syntax_highlight
    · rw [if_pos hs, updateSyntaxAt_map_rc, updateSyntaxAt_map_rc]
      rw [map_listInsertAt]
      rw [map_listModify (fun r => r.row_content)
        (fun r => render_row { r with row_content := r.row_content.take o.cursor_controller.cursor_x })
        (fun s => s.take o.cursor_controller.cursor_x) (fun r => rfl)]
      rfl
    · rw [if_neg hs]
      rw [map_listInsertAt]
      rw [map_listModify (fun r => r.row_content)
        (fun r => render_row { r with row_content := r.row_content.take o.cursor_controller.cursor_x })
        (fun s => s.take o.cursor_controller.cursor_x) (fun r => rfl)]
      rfl

/-- The raw-content image of join_adjacent_rows: remove row `i`, append its raw
content onto row `i-1`. -/
theorem join_adjacent_rows_map_rc (e : EditorRows) (i : Nat) (cur : Row)
    (hcur : e.row_contents[i]? = some cur) :
    (e.join_adjacent_rows i).row_contents.map (fun r => r.row_content) =
      listModify (i - 1) (fun s => s ++ cur.row_content)
        (listEraseAt i (e.row_contents.map fun r => r.row_content)) := by
  rw [EditorRows.join_adjacent_rows, hcur]
  simp only []
  rw [map_listModify (fun r => r.row_content)
    (fun prev => render_row { prev with row_content := prev.row_content ++ cur.row_content })
    (fun s => s ++ cur.row_content) (fun r => rfl)]
  rw [map_listEraseAt]

/-- The raw-content image of backspace at column 0 of row y1 > 0: the join of
row y1 into row y1 - 1. -/
theorem delete_char_map_rc_join (o : Output) (y1 : Nat)
    (hy1 : o.cursor_controller.cursor_y = y1)
    (hx0 : o.cursor_controller.cursor_x = 0)
    (hn : y1 ≠ o.editor_rows.number_of_row)
    (h0 : 0 < y1) :
    o.delete_char.editor_rows.row_contents.map (fun r => r.row_content) =
      (o.editor_rows.join_adjacent_rows y1).row_contents.map (fun r => r.row_content) := by
  subst hy1
  simp only [Output.delete_char]
  rw [if_neg hn, if_neg (by omega)]
  rw [if_neg (by omega)]
  by_cases hs : o.syntax_highlight
  · rw [if_pos hs, updateSyntaxAt_map_rc]
  · rw [if_neg hs]

/-- C7: inserting a newline at the cursor position (splitting the row) and then
immediately backspacing at column 0 of the resulting second row (joining it back)
leaves the row store with exactly the original raw contents. -/
theorem split_join_inverse (o : Output)
    (hy : o.cursor_controller.cursor_y < o.editor_rows.number_of_row) :
    (o.insert_newline.delete_char).editor_rows.row_contents.map (fun r => r.row_content) =
      o.editor_rows.row_contents.map (fun r => r.row_content) := by
  have hyl : o.cursor_controller.cursor_y < o.editor_rows.row_contents.length := hy
  obtain ⟨v, hv⟩ : ∃ v, o.editor_rows.row_contents[o.cursor_controller.cursor_y]? = some v :=
    ⟨_, List.getElem?_eq_getElem hyl⟩
  have hvR : (o.editor_rows.row_contents.map
      fun r => r.row_content)[o.cursor_controller.cursor_y]? = some v.row_content := by
    rw [List.getElem?_map, hv]
    rfl
  have h1 := insert_newline_map_rc o v hv
  have hc1 := insert_newline_cursor o
  have hlen1 : o.insert_newline.editor_rows.row_contents.length =
      o.editor_rows.row_contents.length + 1 := by
    have hlm := congrArg List.length h1
    rw [List.length_map] at hlm
    rw [hlm]
    by_cases hx0 : o.cursor_controller.cursor_x = 0
    · rw [if_pos hx0, listInsertAt_length _ _ _ (by simp; omega)]
      simp
    · rw [if_neg hx0, listInsertAt_length _ _ _ (by rw [listModify_length]; simp; omega)]
      rw [listModify_length]
      simp
  obtain ⟨cur, hcur⟩ : ∃ cur,
      o.insert_newline.editor_rows.row_contents[o.cursor_controller.cursor_y + 1]? = some cur :=
    ⟨_, List.getElem?_eq_getElem (by omega)⟩
  have h2 := delete_char_map_rc_join o.insert_newline (o.cursor_controller.cursor_y + 1)
    (by rw [hc1]) (by rw [hc1])
    (by
      show o.cursor_controller.cursor_y + 1 ≠ o.insert_newline.editor_rows.row_contents.length
      omega)
    (by omega)
  have h3 := join_adjacent_rows_map_rc o.insert_newline.editor_rows
    (o.cursor_controller.cursor_y + 1) cur hcur
  rw [h2, h3, h1]
  have hcur_rc : cur.row_content =
      if o.cursor_controller.cursor_x = 0 then v.row_content
      else v.row_content.drop o.cursor_controller.cursor_x := by
    have hg : (o.insert_newline.editor_rows.row_contents.map
        (fun r => r.row_content))[o.cursor_controller.cursor_y + 1]? = some cur.row_content := by
      rw [List.getElem?_map, hcur]
      rfl
    rw [h1] at hg
    by_cases hx0 : o.cursor_controller.cursor_x = 0
    · rw [if_pos hx0] at hg
      rw [if_pos hx0]
      rw [listInsertAt_eq _ _ _ (by simp; omega)] at hg
      have hdropR : (o.editor_rows.row_contents.map
          fun r => r.row_content).drop o.cursor_controller.cursor_y =
          v.row_content :: (o.editor_rows.row_contents.map
            fun r => r.row_content).drop (o.cursor_controller.cursor_y + 1) := by
        rw [List.drop_eq_getElem_cons (by simpa using hyl)]
        have := Option.some.inj
          ((List.getElem?_eq_getElem (l := o.editor_rows.row_contents.map
            fun r => r.row_content) (by simpa using hyl)).symm.trans hvR)
        rw [this]
      rw [hdropR] at hg
      have hsplit : (o.editor_rows.row_contents.map fun r => r.row_content).take
            o.cursor_controller.cursor_y ++
            ([] : List Char) :: v.row_content ::
              (o.editor_rows.row_contents.map fun r => r.row_content).drop
                (o.cursor_controller.cursor_y + 1) =
          ((o.editor_rows.row_contents.map fun r => r.row_content).take
            o.cursor_controller.cursor_y ++ [([] : List Char)]) ++
            v.row_content ::
              (o.editor_rows.row_contents.map fun r => r.row_content).drop
                (o.cursor_controller.cursor_y + 1) := by
        simp
      rw [hsplit, get_of_append_cons _ _ _ (o.cursor_controller.cursor_y + 1)
        (by simp; omega)] at hg
      exact (Option.some.inj hg).symm
    · rw [if_neg hx0] at hg
      rw [if_neg hx0]
      rw [listModify_eq _ _ _ _ hvR] at hg
      rw [listInsertAt_eq _ _ _ (by simp; omega)] at hg
      rw [take_of_append_cons _ _ _ o.cursor_controller.cursor_y (by simp; omega)] at hg
      rw [drop_of_append_cons _ _ _ o.cursor_controller.cursor_y (by simp; omega)] at hg
      rw [get_of_append_cons _ _ _ (o.cursor_controller.cursor_y + 1) (by simp; omega)] at hg
      exact (Option.some.inj hg).symm
  rw [hcur_rc]
  simp only [Nat.add_sub_cancel]
  by_cases hx0 : o.cursor_controller.cursor_x = 0
  · rw [if_pos hx0, if_pos hx0]
    exact split_join_core_zero _ _ _ hvR
  · rw [if_neg hx0, if_neg hx0]
    exact split_join_core_pos _ _ _ _ hvR

/-- C7 witness: splitting the row "abc" at raw position 1 and backspacing at the
start of the new second row reconstructs ["abc"]. -/
theorem split_join_inverse_witness :
    ((sampleOutput ["abc"] 1 0).insert_newline.delete_char).editor_rows.row_contents.map
        (fun r => r.row_content) =
      (sampleOutput ["abc"] 1 0).editor_rows.row_contents.map (fun r => r.row_content) :=
  split_join_inverse (sampleOutput ["abc"] 1 0) (by decide)

/-- The find scan with a Forward y_direction and no x_direction leaves the state
untouched when no row strictly below y_index contains the query: stepping past the
last row stops the scan instead of wrapping. -/
theorem findGo_forward_no_match (keyword : List Char) (w : Output) (n : Nat)
    (hn : n = w.editor_rows.number_of_row)
    (hyf : w.search_index.y_direction = some SearchDirection.Forward)
    (hxn : w.search_index.x_direction = none)
    (hno : ∀ j, w.search_index.y_index < j → ∀ row,
      w.editor_rows.row_contents[j]? = some row → strFind row.render keyword = none) :
    ∀ i, findGo keyword n i w = w := by
  have main : ∀ (m i : Nat), n - i ≤ m → findGo keyword n i w = w := by
    intro m
    induction m with
    | zero =>
      intro i hi
      rw [findGo, if_neg (by omega)]
    | succ m ih =>
      intro i hi
      rw [findGo]
      by_cases h : i < n
      · rw [if_pos h]
        rw [if_neg (by simp [hyf])]
        simp only [hyf, hxn]
        by_cases hbig : w.search_index.y_index + i + 1 > n - 1
        · rw [if_pos hbig]
        · rw [if_neg hbig]
          have hlt : w.search_index.y_index + i + 1 < w.editor_rows.row_contents.length := by
            have : n = w.editor_rows.row_contents.length := hn
            omega
          obtain ⟨row', hrow⟩ : ∃ row',
              w.editor_rows.row_contents[w.search_index.y_index + i + 1]? = some row' :=
            ⟨_, List.getElem?_eq_getElem hlt⟩
          rw [hrow]
          simp only [Option.getD_some, Row.find]
          rw [hno (w.search_index.y_index + i + 1) (by omega) row' hrow]
          exact ih (i + 1) (by omega)
      · rw [if_neg h]
  intro i
  exact main (n - i) i (by omega)

/-- C8: on a search keystroke that sets y_direction Forward with no x_direction
(the Down key), when the query occurs in no row strictly below the stored y_index
and no overlay is pending, the scan reports no match: cursor, rows and highlights
are all left unchanged, and no overlay is recorded - the scan does not wrap to
row 0. -/
theorem find_forward_does_not_wrap (out : Output) (keyword : List Char)
    (hov : out.search_index.previous_highlight = none)
    (hno : ∀ j, out.search_index.y_index < j → ∀ row,
      out.editor_rows.row_contents[j]? = some row → strFind row.render keyword = none) :
    (find_callback out keyword KeyCode.down).cursor_controller = out.cursor_controller ∧
    (find_callback out keyword KeyCode.down).editor_rows = out.editor_rows ∧
    (find_callback out keyword KeyCode.down).search_index.previous_highlight = none := by
  rw [find_callback, hov]
  simp only []
  have hgo := findGo_forward_no_match keyword
    { out with
      search_index :=
        { out.search_index with
          y_direction := some SearchDirection.Forward, x_direction := none } }
    out.editor_rows.number_of_row rfl rfl rfl hno 0
  rw [hgo]
  exact ⟨rfl, rfl, hov⟩

/-- C8 witness: searching "abc" downward from y_index 0 on the one-row document
["abc"] (the only occurrence is at y_index itself) changes nothing. -/
theorem find_forward_does_not_wrap_witness :
    (find_callback (sampleOutput ["abc"] 0 0) "abc".data KeyCode.down).cursor_controller =
      (sampleOutput ["abc"] 0 0).cursor_controller :=
  (find_forward_does_not_wrap (sampleOutput ["abc"] 0 0) "abc".data rfl
    (by
      intro j hj row hrow
      rw [List.getElem?_eq_none (by simpa using hj)] at hrow
      exact absurd hrow (by simp))).1

/-- C9 witness: on a 10x10 viewport with the cursor at row 25 of a 30-row document,
the scroll pass puts the cursor on the bottom edge of the window. -/
theorem scroll_keeps_cursor_in_window_witness :
    ((mkCursor 0 25).scroll (sampleRows (List.replicate 30 "x"))).row_offset ≤
      ((mkCursor 0 25).scroll (sampleRows (List.replicate 30 "x"))).cursor_y ∧
    ((mkCursor 0 25).scroll (sampleRows (List.replicate 30 "x"))).cursor_y <
      ((mkCursor 0 25).scroll (sampleRows (List.replicate 30 "x"))).row_offset +
        (mkCursor 0 25).screen_rows :=
  (scroll_keeps_cursor_in_window (mkCursor 0 25) (sampleRows (List.replicate 30 "x"))
    (by decide) (by decide)).1

end Pound
